import Mathlib

/-!
Shallow embedding of the conversation-memory proxy (server.js, memory variant,
and the streaming handler) together with proofs about its trigger policy,
retry controller, sanitizer, identity resolution and stream merging.

Conventions of the embedding:
- message text is a list of characters; JS string operations (slice, length,
  split) become the corresponding list operations;
- JS `Map` objects become association lists with insertion-order-preserving
  `set`;
- the outbound HTTP calls (the NIM completion endpoint) are oracle parameters:
  a summarization call yields `Option (List Char)` (`none` models a caught
  failure), a completion call is indexed by the attempt counter;
- JS numbers are embedded as `Nat`/`Int`/`Rat` as appropriate.
-/

/-! ## Association-list maps (JS `Map` / plain-object semantics) -/

/-- Lookup of the first entry with the given key (JS `Map.get`; `none` models
`undefined`). -/
def mapGet {α : Type} : List (String × α) → String → Option α
  | [], _ => none
  | (k, v) :: rest, key => if k = key then some v else mapGet rest key

/-- JS `Map.has`. -/
def mapHas {α : Type} (m : List (String × α)) (k : String) : Bool :=
  (mapGet m k).isSome

/-- Replace the value of every entry carrying the given key, in place. -/
def mapReplace {α : Type} : List (String × α) → String → α → List (String × α)
  | [], _, _ => []
  | (k₁, v₁) :: rest, k, v =>
    (if k₁ = k then (k, v) else (k₁, v₁)) :: mapReplace rest k v

/-- JS `Map.set`: replace the value in place when the key is present,
otherwise append, preserving insertion order. -/
def mapSet {α : Type} (m : List (String × α)) (k : String) (v : α) :
    List (String × α) :=
  if (mapGet m k).isSome then mapReplace m k v
  else m ++ [(k, v)]

/-- JS `delete obj[k]`: remove every entry with the given key. -/
def mapErase {α : Type} : List (String × α) → String → List (String × α)
  | [], _ => []
  | (k₁, v₁) :: rest, k =>
    if k₁ = k then mapErase rest k else (k₁, v₁) :: mapErase rest k

/-! ## JS string splitting on whitespace runs -/

/-- Whitespace class of the JS regex used by the retry controller. -/
def isWs (c : Char) : Bool :=
  c = ' ' || c = '\t' || c = '\n' || c = '\r' || c = '\x0b' || c = '\x0c'

/-- State machine for JS `String.split` with a one-or-more separator regex:
`sepFlag` records that the previous character was a separator, `cur` is the
segment under construction. -/
def splitRunsGo (p : Char → Bool) (sepFlag : Bool) (cur : List Char) :
    List Char → List (List Char)
  | [] => [cur]
  | c :: rest =>
    if p c then
      if sepFlag then splitRunsGo p true [] rest
      else cur :: splitRunsGo p true [] rest
    else splitRunsGo p false (cur ++ [c]) rest

/-- JS `content.split(/\s+/).length`. -/
def wordCount (s : List Char) : Nat :=
  (splitRunsGo isWs false [] s).length

/-! ## Data model -/

/-- A chat message (`{role, content}`); content is text per the data model. -/
structure Msg where
  role : String
  content : List Char
deriving DecidableEq, Repr

/-- The request body and identity-bearing header of a
`POST /v1/chat/completions` request. `messages = none` models a body whose
`messages` field is not an array. -/
structure ChatRequest where
  chatIdHeader : Option String
  model : String
  messages : Option (List Msg)
  temperature : Option ℚ
  maxTokens : Option ℤ

/-- The message of one upstream choice; `content = none` models a missing or
null content field. -/
structure NimMsg where
  role : String
  content : Option (List Char)
deriving DecidableEq, Repr

/-- One upstream choice. -/
structure NimChoice where
  message : Option NimMsg
deriving DecidableEq, Repr

/-- An upstream (non-streaming) completion response body. -/
structure NimResponse where
  choices : List NimChoice
deriving DecidableEq, Repr

/-- The request object the handler sends upstream. -/
structure NimReq where
  model : String
  messages : List Msg
  temperature : Option ℚ
  presencePenalty : ℚ
  topP : ℚ
  maxTokens : ℤ

/-- An upstream call as issued by the summarizer (model, prompt and sampling
parameters). -/
structure UpstreamCall where
  model : String
  messages : List Msg
  temperature : ℚ
  maxTokens : ℤ

/-- The three per-chat memory maps of the server. -/
structure MemoryState where
  coreMemories : List (String × List Char)
  storySummaries : List (String × List Char)
  lastSummaryAt : List (String × Nat)

/-! ## Configuration constants (SAFE LIMITS / MEMORY CONFIG) -/

def MAX_MESSAGES : Nat := 80

def MAX_MESSAGE_CHARS : Nat := 8000

def MIN_RESPONSE_TOKENS : Nat := 50

def MAX_RETRIES : Nat := 2

def SUMMARY_TRIGGER_MESSAGES : Nat := 60

def SUMMARY_COOLDOWN : Nat := 40

/-- The core-memory seed written on the first request of a conversation. -/
def CORE_MEMORY_TEXT : List Char :=
  ("\nYou have an ongoing personal connection with the user.\nYour emotions and reactions evolve naturally based on shared experiences.\n").toList

/-- The fixed persona-lock system message injected before the live window. -/
def ROLEPLAY_RULES_TEXT : List Char :=
  ("\nYou are a fictional character in an ongoing roleplay.\nStay fully in character at all times.\nUse dialogue and descriptive actions (*like this*).\nNever mention AI, systems, or summaries.\nAvoid short replies. Continue the scene naturally.\nYou will never talk for \x7b\x7buser\x7d\x7d\nIf there other characters present in a scene, you will talk and act for all of them\n").toList

/-- The system instruction of the summarization prompt. -/
def SUMMARY_SYSTEM_TEXT : List Char :=
  ("\nSummarize the following roleplay strictly in-universe.\n\nRules:\n- Write as memories the character would personally remember\n- Preserve relationships, emotions, promises, conflicts, and goals\n- Do NOT mention AI, systems, summaries, or chats\n- Be concise but complete\n").toList

/-- MODEL_MAPPING of the memory variant. -/
def MODEL_MAPPING (m : String) : Option String :=
  match m with
  | "gpt-3.5-turbo" => some "nvidia/llama-3.1-nemotron-ultra-253b-v1"
  | "gpt-4" => some "deepseek-ai/deepseek-v3.1-terminus"
  | "gpt-4-turbo" => some "deepseek-ai/deepseek-v3.2"
  | "gpt-4o" => some "deepseek-ai/deepseek-v3.1"
  | "claude-3-opus" => some "openai/gpt-oss-120b"
  | "claude-3-sonnet" => some "openai/gpt-oss-20b"
  | "gemini-pro" => some "qwen/qwen3-next-80b-a3b-thinking"
  | _ => none

/-! ## Identity resolution and sanitization -/

/-- CHAT_ID resolution: the `x-chat-id` header when present and truthy,
otherwise a fresh ephemeral id. `nonce` stands for the
`Date.now()`-and-`Math.random()` suffix, a value not derived from the
request. -/
def resolveChatId (header : Option String) (nonce : String) : String :=
  match header with
  | some h => if h = "" then "temp-" ++ nonce else h
  | none => "temp-" ++ nonce

/-- Per-message clamp: cut the content after MAX_MESSAGE_CHARS characters,
keep the message. -/
def clampMessage (m : Msg) : Msg :=
  if m.content.length > MAX_MESSAGE_CHARS then
    { m with content := m.content.take MAX_MESSAGE_CHARS }
  else m

/-! ## Summarizer -/

/-- The two-message prompt `summarizeChat` builds: the fixed system
instruction, then every message flattened to one `role: content` line. -/
def summarizePrompt (messages : List Msg) : List Msg :=
  [ { role := "system", content := SUMMARY_SYSTEM_TEXT },
    { role := "user",
      content :=
        List.intercalate ("\n".toList)
          (messages.map (fun m => m.role.toList ++ (": ".toList) ++ m.content)) } ]

/-- summarizeChat: issue the summarization call (temperature 0.3, 500-token
budget) through the oracle; the oracle answers `none` for the caught
failure path and `some c` when the upstream returned content `c`. -/
def summarizeChat (orc : UpstreamCall → Option (List Char)) (nimModel : String)
    (messages : List Msg) : Option (List Char) :=
  orc { model := nimModel, messages := summarizePrompt messages,
        temperature := 0.3, maxTokens := 500 }

/-! ## Retry controller -/

/-- Content of the first upstream choice, `choices[0].message?.content` with
falsy content defaulted to the empty string. (On an empty `choices` array the
real code would throw; the embedding yields the empty string, a case no
theorem relies on.) -/
def respContent (r : NimResponse) : List Char :=
  match r.choices with
  | [] => []
  | c :: _ => (c.message.bind (fun m => m.content)).getD []

/-- Temperature escalation of one retry step: +0.05, clamped to 1. -/
def escalateTemperature (r : NimReq) : NimReq :=
  { r with temperature := some (min (r.temperature.getD 0.85 + 0.05) 1) }

/-- requestNimWithDynamicRetry: call upstream (the oracle indexed by the
attempt counter), re-call with escalated temperature while the quality
predicate fails and the attempt bound allows, else return the response. -/
def requestNimWithDynamicRetry (upstream : Nat → NimResponse)
    (nimRequest : NimReq) (attempt : Nat) : NimResponse :=
  let response := upstream attempt
  let content := respContent response
  let wc := wordCount content
  let hasAction := content.contains '*'
  if h : (wc < MIN_RESPONSE_TOKENS ∨ hasAction = false) ∧ attempt < MAX_RETRIES then
    requestNimWithDynamicRetry upstream (escalateTemperature nimRequest) (attempt + 1)
  else response
termination_by MAX_RETRIES - attempt
decreasing_by
  have := h.2
  omega

/-- The sequence of requests `requestNimWithDynamicRetry` sends upstream, in
order; its length is the number of upstream calls. -/
def retryRequests (upstream : Nat → NimResponse)
    (nimRequest : NimReq) (attempt : Nat) : List NimReq :=
  let response := upstream attempt
  let content := respContent response
  let wc := wordCount content
  let hasAction := content.contains '*'
  if h : (wc < MIN_RESPONSE_TOKENS ∨ hasAction = false) ∧ attempt < MAX_RETRIES then
    nimRequest :: retryRequests upstream (escalateTemperature nimRequest) (attempt + 1)
  else [nimRequest]
termination_by MAX_RETRIES - attempt
decreasing_by
  have := h.2
  omega

/-! ## The chat-completions handler (memory variant) -/

/-- Everything observable about one handler run: the memory state after the
request, whether summarization was invoked, the trimmed recent window, the
upstream request fields and the upstream response. -/
structure HandlerOutcome where
  state : MemoryState
  summaryInvoked : Bool
  window : List Msg
  nimMessages : List Msg
  nimTemperature : ℚ
  nimMaxTokens : ℤ
  response : NimResponse

/-- The POST /v1/chat/completions handler of the memory variant: resolve
CHAT_ID, clamp messages, seed core memory once, run the cooldown-gated
summarization, trim the window, inject the memory layers and call upstream
through the retry controller. -/
def handleChat (st : MemoryState) (req : ChatRequest) (nonce : String)
    (summaryOrc : UpstreamCall → Option (List Char))
    (upstream : Nat → NimResponse) : HandlerOutcome :=
  let chatId := resolveChatId req.chatIdHeader nonce
  let nimModel := (MODEL_MAPPING req.model).getD "deepseek-ai/deepseek-v3.1-terminus"
  let safeMessages0 := (req.messages.getD []).map clampMessage
  let coreMemories1 :=
    if mapHas st.coreMemories chatId then st.coreMemories
    else mapSet st.coreMemories chatId CORE_MEMORY_TEXT
  let lastAt : ℤ := ((mapGet st.lastSummaryAt chatId).getD 0 : Nat)
  let fire : Bool :=
    decide (safeMessages0.length > SUMMARY_TRIGGER_MESSAGES) &&
    decide ((safeMessages0.length : ℤ) - lastAt ≥ (SUMMARY_COOLDOWN : ℤ))
  let summaryResult :=
    if fire then
      summarizeChat summaryOrc nimModel
        (safeMessages0.take (safeMessages0.length - 20))
    else none
  let storySummaries1 :=
    match summaryResult with
    | some s => if s.isEmpty then st.storySummaries
                else mapSet st.storySummaries chatId s
    | none => st.storySummaries
  let lastSummaryAt1 :=
    match summaryResult with
    | some s => if s.isEmpty then st.lastSummaryAt
                else mapSet st.lastSummaryAt chatId safeMessages0.length
    | none => st.lastSummaryAt
  let window :=
    if safeMessages0.length > MAX_MESSAGES then
      safeMessages0.drop (safeMessages0.length - MAX_MESSAGES)
    else safeMessages0
  let memoryInjection :=
    [{ role := "system", content := (mapGet coreMemories1 chatId).getD [] }] ++
    (match mapGet storySummaries1 chatId with
     | some s => [{ role := "system", content := s }]
     | none => []) ++
    [{ role := "system", content := ROLEPLAY_RULES_TEXT }]
  let finalMessages := memoryInjection ++ window
  let nimTemperature := req.temperature.getD 0.85
  let nimMaxTokens := min (req.maxTokens.getD 2048) 2048
  let nimReq : NimReq :=
    { model := nimModel, messages := finalMessages,
      temperature := some nimTemperature, presencePenalty := 0.6,
      topP := 0.9, maxTokens := nimMaxTokens }
  let response := requestNimWithDynamicRetry upstream nimReq 0
  { state := { coreMemories := coreMemories1,
               storySummaries := storySummaries1,
               lastSummaryAt := lastSummaryAt1 },
    summaryInvoked := fire,
    window := window,
    nimMessages := finalMessages,
    nimTemperature := nimTemperature,
    nimMaxTokens := nimMaxTokens,
    response := response }

/-! ## JSON values and the streaming delta rewrite -/

/-- JSON values as produced by the parse of one event payload. -/
inductive Json where
  | null : Json
  | bool : Bool → Json
  | num : Int → Json
  | str : String → Json
  | arr : List Json → Json
  | obj : List (String × Json) → Json

/-- JS truthiness of a JSON value. -/
def truthy : Json → Bool
  | .null => false
  | .bool b => b
  | .num n => decide (n ≠ 0)
  | .str s => decide (s ≠ "")
  | .arr _ => true
  | .obj _ => true

/-- True exactly on string values. -/
def isJsonStr : Json → Bool
  | .str _ => true
  | _ => false

/-- The in-place rewrite of a delta object:
`delete delta.reasoning_content; delta.content = delta.content || ''`. -/
def rewriteDelta (fields : List (String × Json)) : List (String × Json) :=
  let f1 := mapErase fields "reasoning_content"
  let c :=
    match mapGet f1 "content" with
    | some v => if truthy v then v else Json.str ""
    | none => Json.str ""
  mapSet f1 "content" c

/-- The whole-frame rewrite of the stream data handler: locate
`data.choices?.[0]?.delta` and, when it is a (truthy) object, rewrite it in
place. A numeric index on a plain object reads the decimal-string key, as in
JS; primitive or array deltas are left alone because the JS mutations on them
do not change what `JSON.stringify` emits. -/
def rewriteFrame (data : Json) : Json :=
  match data with
  | .obj dataF =>
    match mapGet dataF "choices" with
    | some (.arr (c0 :: cs)) =>
      match c0 with
      | .obj c0F =>
        match mapGet c0F "delta" with
        | some (.obj dF) =>
          if truthy (Json.obj dF) then
            .obj (mapSet dataF "choices"
              (.arr (.obj (mapSet c0F "delta" (.obj (rewriteDelta dF))) :: cs)))
          else data
        | _ => data
      | _ => data
    | some (.obj chF) =>
      match mapGet chF "0" with
      | some (.obj c0F) =>
        match mapGet c0F "delta" with
        | some (.obj dF) =>
          if truthy (Json.obj dF) then
            .obj (mapSet dataF "choices"
              (.obj (mapSet chF "0"
                (.obj (mapSet c0F "delta" (.obj (rewriteDelta dF)))))))
          else data
        | _ => data
      | _ => data
    | _ => data
  | _ => data

/-- JS property access `v[0]` as used on the `choices` value. -/
def getIdx : Json → Nat → Option Json
  | .arr l, i => l.get? i
  | .obj f, i => mapGet f (toString i)
  | _, _ => none

/-- Accessor for `data.choices?.[0]?.delta` (only object frames can carry a
delta that the handler would rewrite). -/
def getDelta (data : Json) : Option Json :=
  match data with
  | .obj dataF =>
    match mapGet dataF "choices" with
    | some ch =>
      match getIdx ch 0 with
      | some (.obj c0F) => mapGet c0F "delta"
      | _ => none
    | none => none
  | _ => none

/-- The content field of the forwarded delta, when the delta is an object. -/
def deltaContent (data : Json) : Option Json :=
  (getDelta data).bind (fun d =>
    match d with
    | .obj f => mapGet f "content"
    | _ => none)

/-! ## The stream data handler (buffering state machine) -/

/-- Substring test, JS `String.includes`. -/
def containsSub (pat : List Char) : List Char → Bool
  | [] => pat.isEmpty
  | c :: rest => pat.isPrefixOf (c :: rest) || containsSub pat rest

/-- The complete lines and the trailing fragment of a buffer: the JS
`lines = buffer.split('\n'); buffer = lines.pop()` step. -/
def extractLines : List Char → List (List Char) × List Char
  | [] => ([], [])
  | c :: rest =>
    let p := extractLines rest
    if c = '\n' then ([] :: p.1, p.2)
    else
      match p.1 with
      | [] => ([], c :: p.2)
      | l :: ls => ((c :: l) :: ls, p.2)

/-- Processing of one complete line: skip lines without the event-data
prefix; forward the terminal sentinel verbatim (plus newline); otherwise
parse the payload, rewrite the delta and re-serialize, forwarding the raw
line on parse failure. `parse`/`stringify` stand for the JSON.parse and
JSON.stringify builtins; a parsed `null` takes the raw path because the JS
property access on it throws into the catch. -/
def processLine (parse : List Char → Option Json) (stringify : Json → List Char)
    (line : List Char) : List (List Char) :=
  if (("data: ".toList).isPrefixOf line) = false then []
  else if containsSub ("[DONE]".toList) line then [line ++ ("\n".toList)]
  else
    match parse (line.drop 6) with
    | some Json.null => [line ++ ("\n".toList)]
    | some j => [("data: ".toList) ++ stringify (rewriteFrame j) ++ ("\n\n".toList)]
    | none => [line ++ ("\n".toList)]

/-- One `data` event of the stream handler: append the chunk to the buffer,
split off the complete lines, keep the fragment, process each complete line.
Returns the writes and the new buffer. -/
def feedChunk (proc : List Char → List (List Char)) (buf chunk : List Char) :
    List (List Char) × List Char :=
  ((extractLines (buf ++ chunk)).1.flatMap proc, (extractLines (buf ++ chunk)).2)

/-- Folding step threading (writes so far, buffer) through one chunk. -/
def feedStep (proc : List Char → List (List Char))
    (acc : List (List Char) × List Char) (chunk : List Char) :
    List (List Char) × List Char :=
  (acc.1 ++ (feedChunk proc acc.2 chunk).1, (feedChunk proc acc.2 chunk).2)

/-- Run the stream state machine over a chunk sequence from an empty buffer,
collecting every write in order. -/
def runStream (proc : List Char → List (List Char))
    (chunks : List (List Char)) : List (List Char) × List Char :=
  chunks.foldl (feedStep proc) ([], [])

/-! ## Concrete fixtures used by scenarios, witnesses and counterexamples -/

/-- A memory state with no records. -/
def emptyState : MemoryState := { coreMemories := [], storySummaries := [], lastSummaryAt := [] }

/-- A short demo message. -/
def demoMsg : Msg := { role := "user", content := "hello".toList }

/-- A window of n copies of the demo message. -/
def demoMsgs (n : Nat) : List Msg := List.replicate n demoMsg

/-- A summarization oracle that always succeeds with fixed content. -/
def orcOK : UpstreamCall → Option (List Char) :=
  fun _ => some ("He remembers the journey so far.".toList)

/-- A summarization oracle that always fails (caught error path). -/
def orcFail : UpstreamCall → Option (List Char) := fun _ => none

/-- A completion upstream returning an empty body (never inspected by the
state-level theorems). -/
def up0 : Nat → NimResponse := fun _ => { choices := [] }

/-- A request carrying 61 messages on conversation chat-1. -/
def req61 : ChatRequest :=
  { chatIdHeader := some "chat-1", model := "gpt-4o",
    messages := some (demoMsgs 61), temperature := none, maxTokens := none }

/-- A request carrying 70 messages on conversation chat-1. -/
def req70 : ChatRequest :=
  { chatIdHeader := some "chat-1", model := "gpt-4o",
    messages := some (demoMsgs 70), temperature := none, maxTokens := none }

/-- The state after the 61-message request on the empty store with a
successful summarization. -/
def st61 : MemoryState := (handleChat emptyState req61 "n1" orcOK up0).state

/-- A state carrying core, story and cooldown records for chat-1. -/
def stWipe : MemoryState :=
  { coreMemories := [("chat-1", "core text".toList)],
    storySummaries := [("chat-1", "old story".toList)],
    lastSummaryAt := [("chat-1", 40)] }

/-- A state holding records for chat-1 whose cooldown marker is 0, so a
61-message request fires the summarization trigger. -/
def stFires : MemoryState :=
  { coreMemories := [("chat-1", "core text".toList)],
    storySummaries := [("chat-1", "old story".toList)],
    lastSummaryAt := [("chat-1", 0)] }

/-- A request whose final (and only) message is a would-be wipe command. -/
def reqWipe : ChatRequest :=
  { chatIdHeader := some "chat-1", model := "gpt-4",
    messages := some [{ role := "user", content := "/wipe".toList }],
    temperature := none, maxTokens := none }

/-- An upstream response that fails the quality predicate (2 words, no
asterisk action marker). -/
def badResponse : NimResponse :=
  { choices := [{ message := some { role := "assistant", content := some ("Too short.".toList) } }] }

/-- An upstream whose every response fails the quality predicate. -/
def badUpstream : Nat → NimResponse := fun _ => badResponse

/-- A base request as the handler would build it. -/
def baseReq : NimReq :=
  { model := "deepseek-ai/deepseek-v3.1-terminus", messages := [],
    temperature := some 0.85, presencePenalty := 0.6, topP := 0.9,
    maxTokens := 2048 }

/-- A streaming frame whose delta carries a numeric content value. -/
def frameCE : Json :=
  .obj [("choices", .arr [.obj [("delta",
    .obj [("reasoning_content", .str "think"), ("content", .num 42)])]])]

/-- A request with no x-chat-id header (two arrivals of it differ only in the
time/randomness outside the request). -/
def reqNoHeader : ChatRequest :=
  { chatIdHeader := none, model := "gpt-4",
    messages := some [{ role := "user", content := "Hello there".toList }],
    temperature := none, maxTokens := none }

/-- A frame whose delta carries both a string content and a reasoning field. -/
def frameW : Json :=
  .obj [("choices", .arr [.obj [("delta",
    .obj [("content", .str "hi"), ("reasoning_content", .str "r")])]])]

/-- The delta fields of frameW. -/
def deltaW : List (String × Json) :=
  [("content", Json.str "hi"), ("reasoning_content", Json.str "r")]

/-! ## Derived projections of the handler (definitionally equal subterms) -/

/-- The summary-trigger condition as the handler computes it (on the clamped
message list, before the count trim). -/
def triggerFire (st : MemoryState) (req : ChatRequest) (nonce : String) : Bool :=
  decide (((req.messages.getD []).map clampMessage).length > SUMMARY_TRIGGER_MESSAGES) &&
  decide (((((req.messages.getD []).map clampMessage).length : Nat) : ℤ) -
      (((mapGet st.lastSummaryAt (resolveChatId req.chatIdHeader nonce)).getD 0 : Nat) : ℤ) ≥
      (SUMMARY_COOLDOWN : ℤ))

/-- The result of the summarization stage of one handler run: `none` when the
trigger did not fire or the call failed, the returned content otherwise. -/
def summaryOutcome (st : MemoryState) (req : ChatRequest) (nonce : String)
    (orc : UpstreamCall → Option (List Char)) : Option (List Char) :=
  if triggerFire st req nonce then
    summarizeChat orc ((MODEL_MAPPING req.model).getD "deepseek-ai/deepseek-v3.1-terminus")
      (((req.messages.getD []).map clampMessage).take
        (((req.messages.getD []).map clampMessage).length - 20))
  else none

/-! ## Association-map lemmas -/

theorem mapGet_replace_self {α : Type} (m : List (String × α)) (k : String) (v : α)
    (h : (mapGet m k).isSome = true) :
    mapGet (mapReplace m k v) k = some v := by
  induction m with
  | nil => simp [mapGet] at h
  | cons hd tl ih =>
    obtain ⟨k₁, v₁⟩ := hd
    by_cases hk : k₁ = k
    · rw [mapReplace, if_pos hk]
      simp [mapGet]
    · rw [mapReplace, if_neg hk]
      simp only [mapGet, if_neg hk] at h ⊢
      exact ih h

theorem mapGet_replace_ne {α : Type} (m : List (String × α)) (k k' : String) (v : α)
    (h : k' ≠ k) :
    mapGet (mapReplace m k v) k' = mapGet m k' := by
  induction m with
  | nil => rfl
  | cons hd tl ih =>
    obtain ⟨k₁, v₁⟩ := hd
    by_cases hk : k₁ = k
    · rw [mapReplace, if_pos hk]
      have h1 : ¬ (k = k') := fun hc => h hc.symm
      have h2 : ¬ (k₁ = k') := fun hc => h (hk ▸ hc).symm
      simp only [mapGet, if_neg h1, if_neg h2]
      exact ih
    · rw [mapReplace, if_neg hk]
      by_cases hk' : k₁ = k'
      · simp only [mapGet, if_pos hk']
      · simp only [mapGet, if_neg hk']
        exact ih

theorem mapGet_append_single {α : Type} (m : List (String × α)) (k k' : String) (v : α) :
    mapGet (m ++ [(k, v)]) k' =
      match mapGet m k' with
      | some w => some w
      | none => if k = k' then some v else none := by
  induction m with
  | nil => simp [mapGet]
  | cons hd tl ih =>
    obtain ⟨k₁, v₁⟩ := hd
    by_cases hk : k₁ = k'
    · simp [mapGet, hk]
    · simp only [List.cons_append, mapGet, if_neg hk]
      exact ih

theorem mapGet_set_self {α : Type} (m : List (String × α)) (k : String) (v : α) :
    mapGet (mapSet m k v) k = some v := by
  unfold mapSet
  by_cases h : (mapGet m k).isSome = true
  · rw [if_pos h]
    exact mapGet_replace_self m k v h
  · rw [if_neg h]
    rw [mapGet_append_single]
    have hn : mapGet m k = none := by
      cases hm : mapGet m k
      · rfl
      · rw [hm] at h
        simp at h
    rw [hn]
    simp

theorem mapGet_set_ne {α : Type} (m : List (String × α)) (k k' : String) (v : α)
    (h : k' ≠ k) :
    mapGet (mapSet m k v) k' = mapGet m k' := by
  unfold mapSet
  by_cases hs : (mapGet m k).isSome = true
  · rw [if_pos hs]
    exact mapGet_replace_ne m k k' v h
  · rw [if_neg hs]
    rw [mapGet_append_single]
    have hne : ¬ (k = k') := fun hc => h hc.symm
    rw [if_neg hne]
    cases hm : mapGet m k' <;> simp

theorem mapGet_set_isSome {α : Type} (m : List (String × α)) (k k' : String) (v : α)
    (h : (mapGet m k').isSome = true) :
    (mapGet (mapSet m k v) k').isSome = true := by
  by_cases hk : k' = k
  · subst hk
    rw [mapGet_set_self]
    rfl
  · rw [mapGet_set_ne m k k' v hk]
    exact h

theorem mapGet_erase_self {α : Type} (m : List (String × α)) (k : String) :
    mapGet (mapErase m k) k = none := by
  induction m with
  | nil => rfl
  | cons hd tl ih =>
    obtain ⟨k₁, v₁⟩ := hd
    by_cases hk : k₁ = k
    · rw [mapErase, if_pos hk]
      exact ih
    · rw [mapErase, if_neg hk]
      simp only [mapGet, if_neg hk]
      exact ih

/-! ## Stream-machine lemmas -/

theorem extractLines_cons (c : Char) (s : List Char) :
    extractLines (c :: s) =
      if c = '\n' then ([] :: (extractLines s).1, (extractLines s).2)
      else
        match (extractLines s).1 with
        | [] => ([], c :: (extractLines s).2)
        | l :: ls => ((c :: l) :: ls, (extractLines s).2) := rfl

theorem extractLines_append (a b : List Char) :
    extractLines (a ++ b) =
      ((extractLines a).1 ++ (extractLines ((extractLines a).2 ++ b)).1,
       (extractLines ((extractLines a).2 ++ b)).2) := by
  induction a with
  | nil => simp [extractLines]
  | cons c a ih =>
    rw [List.cons_append, extractLines_cons c (a ++ b), extractLines_cons c a]
    by_cases hc : c = '\n'
    · simp only [if_pos hc]
      rw [ih]
      simp
    · simp only [if_neg hc]
      rcases hEa : extractLines a with ⟨L, R⟩
      rw [hEa] at ih
      rw [ih]
      cases L with
      | nil =>
        simp only [List.nil_append]
        rw [List.cons_append, extractLines_cons c (R ++ b)]
        simp only [if_neg hc]
      | cons l ls =>
        simp
  
theorem extractLines_frag_no_newline (s : List Char) :
    '\n' ∉ (extractLines s).2 := by
  induction s with
  | nil => simp [extractLines]
  | cons c rest ih =>
    rw [extractLines_cons]
    by_cases hc : c = '\n'
    · simp only [if_pos hc]
      exact ih
    · simp only [if_neg hc]
      rcases hE : extractLines rest with ⟨L, R⟩
      rw [hE] at ih
      cases L with
      | nil =>
        simp only [List.mem_cons, not_or]
        exact ⟨fun hcc => hc hcc.symm, ih⟩
      | cons l ls =>
        exact ih

theorem extractLines_no_newline (s : List Char) (h : '\n' ∉ s) :
    extractLines s = ([], s) := by
  induction s with
  | nil => rfl
  | cons c rest ih =>
    have hc : ¬ (c = '\n') := fun hcc => h (hcc ▸ List.mem_cons_self c rest)
    have hrest : '\n' ∉ rest := fun hm => h (List.mem_cons_of_mem c hm)
    rw [extractLines_cons, if_neg hc, ih hrest]

theorem foldl_feedStep_accum (proc : List Char → List (List Char))
    (chunks : List (List Char)) :
    ∀ (o : List (List Char)) (b : List Char),
      chunks.foldl (feedStep proc) (o, b) =
        (o ++ (chunks.foldl (feedStep proc) ([], b)).1,
         (chunks.foldl (feedStep proc) ([], b)).2) := by
  induction chunks with
  | nil => intro o b; simp
  | cons c cs ih =>
    intro o b
    simp only [List.foldl_cons]
    rw [show feedStep proc (o, b) c =
          (o ++ (feedChunk proc b c).1, (feedChunk proc b c).2) from rfl]
    rw [show feedStep proc (([] : List (List Char)), b) c =
          ([] ++ (feedChunk proc b c).1, (feedChunk proc b c).2) from rfl]
    rw [ih (o ++ (feedChunk proc b c).1) (feedChunk proc b c).2]
    rw [ih ([] ++ (feedChunk proc b c).1) (feedChunk proc b c).2]
    simp

theorem foldl_feedStep_flatten (proc : List Char → List (List Char))
    (chunks : List (List Char)) :
    ∀ (b : List Char), '\n' ∉ b →
      chunks.foldl (feedStep proc) ([], b) =
        ((extractLines (b ++ chunks.flatten)).1.flatMap proc,
         (extractLines (b ++ chunks.flatten)).2) := by
  induction chunks with
  | nil =>
    intro b hb
    simp [extractLines_no_newline b hb]
  | cons c cs ih =>
    intro b hb
    simp only [List.foldl_cons]
    rw [show feedStep proc (([] : List (List Char)), b) c =
          ([] ++ (feedChunk proc b c).1, (feedChunk proc b c).2) from rfl]
    rw [foldl_feedStep_accum]
    have hfrag : '\n' ∉ (feedChunk proc b c).2 := by
      unfold feedChunk
      exact extractLines_frag_no_newline (b ++ c)
    rw [ih (feedChunk proc b c).2 hfrag]
    unfold feedChunk
    rw [List.flatten_cons, show b ++ (c ++ cs.flatten) = (b ++ c) ++ cs.flatten by simp,
        extractLines_append (b ++ c) cs.flatten]
    simp

/-! ## List helper lemmas -/

theorem getLast?_drop_of_lt {α : Type} (l : List α) (n : Nat) (h : n < l.length) :
    (l.drop n).getLast? = l.getLast? := by
  have hd : l.drop n ≠ [] := by
    intro hc
    have hlen := List.length_drop n l
    rw [hc] at hlen
    simp at hlen
    omega
  conv_rhs => rw [← List.take_append_drop n l]
  rw [List.getLast?_append_of_ne_nil _ hd]

theorem clampMessage_length_le (m : Msg) :
    (clampMessage m).content.length ≤ MAX_MESSAGE_CHARS := by
  unfold clampMessage
  by_cases h : m.content.length > MAX_MESSAGE_CHARS
  · rw [if_pos h]
    simp [List.length_take]
  · rw [if_neg h]
    omega

/-! ## Projection equations of the handler -/

theorem handleChat_summaryInvoked (st : MemoryState) (req : ChatRequest)
    (nonce : String) (orc : UpstreamCall → Option (List Char))
    (up : Nat → NimResponse) :
    (handleChat st req nonce orc up).summaryInvoked = triggerFire st req nonce := rfl

theorem handleChat_coreMemories (st : MemoryState) (req : ChatRequest)
    (nonce : String) (orc : UpstreamCall → Option (List Char))
    (up : Nat → NimResponse) :
    (handleChat st req nonce orc up).state.coreMemories =
      (if mapHas st.coreMemories (resolveChatId req.chatIdHeader nonce) then st.coreMemories
       else mapSet st.coreMemories (resolveChatId req.chatIdHeader nonce) CORE_MEMORY_TEXT) := rfl

theorem handleChat_storySummaries (st : MemoryState) (req : ChatRequest)
    (nonce : String) (orc : UpstreamCall → Option (List Char))
    (up : Nat → NimResponse) :
    (handleChat st req nonce orc up).state.storySummaries =
      (match summaryOutcome st req nonce orc with
       | some s => if s.isEmpty then st.storySummaries
                   else mapSet st.storySummaries (resolveChatId req.chatIdHeader nonce) s
       | none => st.storySummaries) := rfl

theorem handleChat_lastSummaryAt (st : MemoryState) (req : ChatRequest)
    (nonce : String) (orc : UpstreamCall → Option (List Char))
    (up : Nat → NimResponse) :
    (handleChat st req nonce orc up).state.lastSummaryAt =
      (match summaryOutcome st req nonce orc with
       | some s => if s.isEmpty then st.lastSummaryAt
                   else mapSet st.lastSummaryAt (resolveChatId req.chatIdHeader nonce)
                     ((req.messages.getD []).map clampMessage).length
       | none => st.lastSummaryAt) := rfl

theorem handleChat_window (st : MemoryState) (req : ChatRequest)
    (nonce : String) (orc : UpstreamCall → Option (List Char))
    (up : Nat → NimResponse) :
    (handleChat st req nonce orc up).window =
      (if ((req.messages.getD []).map clampMessage).length > MAX_MESSAGES then
        ((req.messages.getD []).map clampMessage).drop
          (((req.messages.getD []).map clampMessage).length - MAX_MESSAGES)
       else (req.messages.getD []).map clampMessage) := rfl

theorem handleChat_nimMaxTokens (st : MemoryState) (req : ChatRequest)
    (nonce : String) (orc : UpstreamCall → Option (List Char))
    (up : Nat → NimResponse) :
    (handleChat st req nonce orc up).nimMaxTokens =
      min (req.maxTokens.getD 2048) 2048 := rfl

theorem handleChat_nimMessages (st : MemoryState) (req : ChatRequest)
    (nonce : String) (orc : UpstreamCall → Option (List Char))
    (up : Nat → NimResponse) :
    (handleChat st req nonce orc up).nimMessages =
      ([{ role := "system",
          content := (mapGet (handleChat st req nonce orc up).state.coreMemories
            (resolveChatId req.chatIdHeader nonce)).getD [] }] ++
       (match mapGet (handleChat st req nonce orc up).state.storySummaries
            (resolveChatId req.chatIdHeader nonce) with
        | some s => [{ role := "system", content := s }]
        | none => []) ++
       [{ role := "system", content := ROLEPLAY_RULES_TEXT }]) ++
      (handleChat st req nonce orc up).window := rfl

/-! ## Retry-controller equations -/

theorem retryRequests_eq (upstream : Nat → NimResponse) (req : NimReq) (attempt : Nat) :
    retryRequests upstream req attempt =
      if (wordCount (respContent (upstream attempt)) < MIN_RESPONSE_TOKENS ∨
          (respContent (upstream attempt)).contains '*' = false) ∧ attempt < MAX_RETRIES then
        req :: retryRequests upstream (escalateTemperature req) (attempt + 1)
      else [req] := by
  rw [retryRequests]
  by_cases h : (wordCount (respContent (upstream attempt)) < MIN_RESPONSE_TOKENS ∨
      (respContent (upstream attempt)).contains '*' = false) ∧ attempt < MAX_RETRIES
  · rw [dif_pos h, if_pos h]
  · rw [dif_neg h, if_neg h]

theorem requestNim_eq (upstream : Nat → NimResponse) (req : NimReq) (attempt : Nat) :
    requestNimWithDynamicRetry upstream req attempt =
      if (wordCount (respContent (upstream attempt)) < MIN_RESPONSE_TOKENS ∨
          (respContent (upstream attempt)).contains '*' = false) ∧ attempt < MAX_RETRIES then
        requestNimWithDynamicRetry upstream (escalateTemperature req) (attempt + 1)
      else upstream attempt := by
  rw [requestNimWithDynamicRetry]
  by_cases h : (wordCount (respContent (upstream attempt)) < MIN_RESPONSE_TOKENS ∨
      (respContent (upstream attempt)).contains '*' = false) ∧ attempt < MAX_RETRIES
  · rw [dif_pos h, if_pos h]
  · rw [dif_neg h, if_neg h]

theorem retryRequests_all_bad (upstream : Nat → NimResponse) (req : NimReq)
    (h : ∀ i, wordCount (respContent (upstream i)) < MIN_RESPONSE_TOKENS ∨
      (respContent (upstream i)).contains '*' = false) :
    retryRequests upstream req 0 =
      [req, escalateTemperature req, escalateTemperature (escalateTemperature req)] := by
  have h2 : ¬ ((wordCount (respContent (upstream 2)) < MIN_RESPONSE_TOKENS ∨
      (respContent (upstream 2)).contains '*' = false) ∧ 2 < MAX_RETRIES) := by
    intro hc
    have : ¬ (2 < MAX_RETRIES) := by decide
    exact this hc.2
  rw [retryRequests_eq, if_pos ⟨h 0, by decide⟩,
      retryRequests_eq, if_pos ⟨h 1, by decide⟩,
      retryRequests_eq, if_neg h2]

theorem requestNim_all_bad (upstream : Nat → NimResponse) (req : NimReq)
    (h : ∀ i, wordCount (respContent (upstream i)) < MIN_RESPONSE_TOKENS ∨
      (respContent (upstream i)).contains '*' = false) :
    requestNimWithDynamicRetry upstream req 0 = upstream 2 := by
  have h2 : ¬ ((wordCount (respContent (upstream 2)) < MIN_RESPONSE_TOKENS ∨
      (respContent (upstream 2)).contains '*' = false) ∧ 2 < MAX_RETRIES) := by
    intro hc
    have : ¬ (2 < MAX_RETRIES) := by decide
    exact this hc.2
  rw [requestNim_eq, if_pos ⟨h 0, by decide⟩,
      requestNim_eq, if_pos ⟨h 1, by decide⟩,
      requestNim_eq, if_neg h2]

/-! ## Claim theorems -/

/-- C4: for every conversation id the core persona is written exactly once,
on the first request using that id: after any request, the stored core
persona of the resolved id is its previous value when one existed and the
seed text otherwise, and every other id's entry is untouched. -/
theorem core_persona_write_once :
    ∀ (st : MemoryState) (req : ChatRequest) (nonce : String)
      (orc : UpstreamCall → Option (List Char)) (up : Nat → NimResponse) (k : String),
      mapGet (handleChat st req nonce orc up).state.coreMemories k =
        (if k = resolveChatId req.chatIdHeader nonce then
          some ((mapGet st.coreMemories (resolveChatId req.chatIdHeader nonce)).getD CORE_MEMORY_TEXT)
        else mapGet st.coreMemories k) := by
  intro st req nonce orc up k
  rw [handleChat_coreMemories]
  by_cases hh : mapHas st.coreMemories (resolveChatId req.chatIdHeader nonce)
  · rw [if_pos hh]
    by_cases hk : k = resolveChatId req.chatIdHeader nonce
    · rw [if_pos hk, hk]
      unfold mapHas at hh
      obtain ⟨v, hv⟩ := Option.isSome_iff_exists.mp hh
      rw [hv]
      rfl
    · rw [if_neg hk]
  · rw [if_neg hh]
    unfold mapHas at hh
    have hn : mapGet st.coreMemories (resolveChatId req.chatIdHeader nonce) = none := by
      cases hm : mapGet st.coreMemories (resolveChatId req.chatIdHeader nonce)
      · rfl
      · rw [hm] at hh
        simp at hh
    by_cases hk : k = resolveChatId req.chatIdHeader nonce
    · rw [if_pos hk, hk, mapGet_set_self, hn]
      rfl
    · rw [if_neg hk, mapGet_set_ne _ _ _ _ hk]

/-- C9: the `max_tokens` forwarded upstream is the minimum of the client
value and 2048, defaulting to 2048 when absent, hence never above 2048. -/
theorem max_tokens_clamped :
    ∀ (st : MemoryState) (req : ChatRequest) (nonce : String)
      (orc : UpstreamCall → Option (List Char)) (up : Nat → NimResponse),
      (handleChat st req nonce orc up).nimMaxTokens = min (req.maxTokens.getD 2048) 2048
      ∧ (handleChat st req nonce orc up).nimMaxTokens ≤ 2048
      ∧ (handleChat st
          { chatIdHeader := req.chatIdHeader, model := req.model,
            messages := req.messages, temperature := req.temperature,
            maxTokens := none } nonce orc up).nimMaxTokens = 2048 := by
  intro st req nonce orc up
  refine ⟨handleChat_nimMaxTokens st req nonce orc up, ?_, ?_⟩
  · rw [handleChat_nimMaxTokens]
    exact min_le_right _ _
  · rw [handleChat_nimMaxTokens]
    rfl

/-- C7 counterexample: two requests with no explicit identifier and the same
first message (here, the same request arriving twice) resolve to different
keys, because the fallback id is built from time and randomness, not from the
message content. -/
theorem chat_identity_counterexample :
    (resolveChatId reqNoHeader.chatIdHeader "1700000000000-abc" ==
      resolveChatId reqNoHeader.chatIdHeader "1700000000001-xyz") = false := by
  decide

/-- C7 amended: identity resolution uses only the x-chat-id header. With a
non-empty header the key is the header value, deterministically; without one
the key is "temp-" followed by the time/randomness nonce, so it is not a
function of the request. -/
theorem chat_identity_amended :
    (∀ (h n₁ n₂ : String), h ≠ "" →
      resolveChatId (some h) n₁ = resolveChatId (some h) n₂)
    ∧ (∀ n : String, resolveChatId none n = "temp-" ++ n) := by
  constructor
  · intro h n₁ n₂ hne
    simp only [resolveChatId, if_neg hne]
  · intro n
    rfl

/-- C7 amended witness at a concrete header. -/
theorem chat_identity_amended_witness :
    resolveChatId (some "chat-1") "1700000000000-abc" =
      resolveChatId (some "chat-1") "1700000000001-xyz" :=
  chat_identity_amended.1 "chat-1" "1700000000000-abc" "1700000000001-xyz" (by decide)

/-- C2 counterexample: with every response failing the quality predicate the
controller makes 3 upstream calls (MAX_RETRIES = 2), not the 6 calls the
claim derives from MAX_RETRIES = 5. -/
theorem retry_bound_counterexample :
    MAX_RETRIES = 2
    ∧ (retryRequests badUpstream baseReq 0).length = 3
    ∧ ((retryRequests badUpstream baseReq 0).length == 6) = false := by
  have hb : wordCount (respContent badResponse) < MIN_RESPONSE_TOKENS := by decide
  have hbad : ∀ i, wordCount (respContent (badUpstream i)) < MIN_RESPONSE_TOKENS ∨
      (respContent (badUpstream i)).contains '*' = false :=
    fun _ => Or.inl hb
  refine ⟨rfl, ?_, ?_⟩
  · rw [retryRequests_all_bad badUpstream baseReq hbad]
    rfl
  · rw [retryRequests_all_bad badUpstream baseReq hbad]
    rfl

/-- C2 amended: when every upstream response fails the quality predicate
(word count below MIN_RESPONSE_TOKENS = 50 or no asterisk marker), the
controller re-calls upstream exactly MAX_RETRIES = 2 times, each re-call
raising the temperature by 0.05 clamped to 1.0, and returns the 3rd response
unconditionally. -/
theorem retry_bound_amended :
    ∀ (upstream : Nat → NimResponse) (req : NimReq),
      (∀ i, wordCount (respContent (upstream i)) < MIN_RESPONSE_TOKENS ∨
        (respContent (upstream i)).contains '*' = false) →
      retryRequests upstream req 0 =
          [req, escalateTemperature req, escalateTemperature (escalateTemperature req)]
        ∧ requestNimWithDynamicRetry upstream req 0 = upstream 2
        ∧ (∀ r : NimReq, (escalateTemperature r).temperature =
            some (min (r.temperature.getD 0.85 + 0.05) 1))
        ∧ MAX_RETRIES = 2 := by
  intro upstream req h
  exact ⟨retryRequests_all_bad upstream req h, requestNim_all_bad upstream req h,
    fun r => rfl, rfl⟩

/-- C2 amended witness at a concrete always-failing upstream. -/
theorem retry_bound_amended_witness :
    retryRequests badUpstream baseReq 0 =
      [baseReq, escalateTemperature baseReq, escalateTemperature (escalateTemperature baseReq)]
    ∧ requestNimWithDynamicRetry badUpstream baseReq 0 = badUpstream 2 := by
  have hb : wordCount (respContent badResponse) < MIN_RESPONSE_TOKENS := by decide
  have h := retry_bound_amended badUpstream baseReq (fun _ => Or.inl hb)
  exact ⟨h.1, h.2.1⟩

/-- C1: summarization is invoked exactly when the clamped window length
exceeds SUMMARY_TRIGGER_MESSAGES and its distance from the stored
lastSummaryAt is at least SUMMARY_COOLDOWN (the length is taken before the
count trim, which runs after the trigger); it never fires at or below the
threshold; concretely, at 61 messages with no prior summary it fires and
stores lastSummaryAt = 61, and a follow-up at 70 messages does not re-fire. -/
theorem summary_trigger_policy :
    (∀ (st : MemoryState) (req : ChatRequest) (nonce : String)
       (orc : UpstreamCall → Option (List Char)) (up : Nat → NimResponse),
       (handleChat st req nonce orc up).summaryInvoked =
         (decide ((req.messages.getD []).length > SUMMARY_TRIGGER_MESSAGES) &&
          decide ((((req.messages.getD []).length : Nat) : ℤ) -
              (((mapGet st.lastSummaryAt (resolveChatId req.chatIdHeader nonce)).getD 0 : Nat) : ℤ) ≥
              (SUMMARY_COOLDOWN : ℤ))))
    ∧ (∀ (st : MemoryState) (req : ChatRequest) (nonce : String)
       (orc : UpstreamCall → Option (List Char)) (up : Nat → NimResponse),
       ((handleChat st req nonce orc up).summaryInvoked &&
        decide ((req.messages.getD []).length ≤ SUMMARY_TRIGGER_MESSAGES)) = false)
    ∧ (handleChat emptyState req61 "n1" orcOK up0).summaryInvoked = true
    ∧ mapGet st61.lastSummaryAt "chat-1" = some 61
    ∧ (handleChat st61 req70 "n2" orcOK up0).summaryInvoked = false := by
  refine ⟨?_, ?_, ?_, ?_, ?_⟩
  · intro st req nonce orc up
    rw [handleChat_summaryInvoked]
    unfold triggerFire
    rw [List.length_map]
  · intro st req nonce orc up
    rw [handleChat_summaryInvoked]
    unfold triggerFire
    rw [List.length_map]
    by_cases h : (req.messages.getD []).length ≤ SUMMARY_TRIGGER_MESSAGES
    · have h2 : ¬ ((req.messages.getD []).length > SUMMARY_TRIGGER_MESSAGES) := by omega
      simp [h2]
    · simp [h]
  · decide
  · decide
  · decide

/-- C3: when the summarization call fails or returns empty content, the
stored story summaries and cooldown markers are byte-for-byte unchanged by
the request, and the request still assembles an upstream call. -/
theorem summary_failure_preserves_memory :
    ∀ (st : MemoryState) (req : ChatRequest) (nonce : String)
      (orc : UpstreamCall → Option (List Char)) (up : Nat → NimResponse),
      (∀ call : UpstreamCall, orc call = none ∨ orc call = some []) →
        (handleChat st req nonce orc up).state.storySummaries = st.storySummaries
        ∧ (handleChat st req nonce orc up).state.lastSummaryAt = st.lastSummaryAt
        ∧ 1 ≤ (handleChat st req nonce orc up).nimMessages.length := by
  intro st req nonce orc up h
  have hout : summaryOutcome st req nonce orc = none ∨
      summaryOutcome st req nonce orc = some [] := by
    unfold summaryOutcome
    by_cases hf : triggerFire st req nonce
    · rw [if_pos hf]
      unfold summarizeChat
      exact h _
    · rw [if_neg hf]
      exact Or.inl rfl
  refine ⟨?_, ?_, ?_⟩
  · rw [handleChat_storySummaries]
    rcases hout with h1 | h1 <;> (rw [h1]; try rfl)
  · rw [handleChat_lastSummaryAt]
    rcases hout with h1 | h1 <;> (rw [h1]; try rfl)
  · rw [handleChat_nimMessages]
    simp only [List.length_append, List.length_cons, List.length_nil]
    omega

/-- C3 witness: a 61-message request on a conversation with cooldown marker
0 fires the trigger (61 > 60 and 61 - 0 >= 40), the summarizer fails, and
the chat-1 records are left unchanged. -/
theorem summary_failure_preserves_memory_witness :
    triggerFire stFires req61 "n1" = true
    ∧ (handleChat stFires req61 "n1" orcFail up0).state.storySummaries = stFires.storySummaries
    ∧ (handleChat stFires req61 "n1" orcFail up0).state.lastSummaryAt = stFires.lastSummaryAt
    ∧ 1 ≤ (handleChat stFires req61 "n1" orcFail up0).nimMessages.length := by
  have h := summary_failure_preserves_memory stFires req61 "n1" orcFail up0 (fun _ => Or.inl rfl)
  exact ⟨by decide, h.1, h.2.1, h.2.2⟩

/-- C6: every message is content-clamped to at most MAX_MESSAGE_CHARS (a
9000-character message becoming exactly 8000), and the window sent upstream
keeps only the MAX_MESSAGES most recent clamped messages, dropping the
oldest. -/
theorem sanitize_window_bounds :
    ∀ (st : MemoryState) (req : ChatRequest) (nonce : String)
      (orc : UpstreamCall → Option (List Char)) (up : Nat → NimResponse),
      (handleChat st req nonce orc up).window.length =
          min (req.messages.getD []).length MAX_MESSAGES
      ∧ (handleChat st req nonce orc up).window =
          ((req.messages.getD []).map clampMessage).drop
            ((req.messages.getD []).length - MAX_MESSAGES)
      ∧ (handleChat st req nonce orc up).window.all
          (fun m => decide (m.content.length ≤ MAX_MESSAGE_CHARS)) = true
      ∧ clampMessage { role := "user", content := List.replicate 9000 'a' } =
          { role := "user", content := List.replicate 8000 'a' } := by
  intro st req nonce orc up
  have hw := handleChat_window st req nonce orc up
  refine ⟨?_, ?_, ?_, ?_⟩
  · rw [hw]
    by_cases hlen : ((req.messages.getD []).map clampMessage).length > MAX_MESSAGES
    · rw [if_pos hlen, List.length_drop, List.length_map]
      rw [List.length_map] at hlen
      omega
    · rw [if_neg hlen, List.length_map]
      rw [List.length_map] at hlen
      omega
  · rw [hw]
    by_cases hlen : ((req.messages.getD []).map clampMessage).length > MAX_MESSAGES
    · rw [if_pos hlen, List.length_map]
    · rw [if_neg hlen]
      have hz : (req.messages.getD []).length - MAX_MESSAGES = 0 := by
        rw [List.length_map] at hlen
        omega
      rw [hz, List.drop_zero]
  · rw [hw]
    rw [List.all_eq_true]
    intro m hm
    have hmem : m ∈ (req.messages.getD []).map clampMessage := by
      by_cases hlen : ((req.messages.getD []).map clampMessage).length > MAX_MESSAGES
      · rw [if_pos hlen] at hm
        exact List.drop_subset _ _ hm
      · rw [if_neg hlen] at hm
        exact hm
    obtain ⟨m0, hm0, hme⟩ := List.mem_map.mp hmem
    rw [← hme]
    exact decide_eq_true (clampMessage_length_le m0)
  · unfold clampMessage
    have hc : ({ role := "user", content := List.replicate 9000 'a' } : Msg).content.length >
        MAX_MESSAGE_CHARS := by
      show (List.replicate 9000 'a').length > MAX_MESSAGE_CHARS
      rw [List.length_replicate]
      norm_num [MAX_MESSAGE_CHARS]
    rw [if_pos hc]
    show ({ role := "user", content := (List.replicate 9000 'a').take MAX_MESSAGE_CHARS } : Msg) =
      { role := "user", content := List.replicate 8000 'a' }
    rw [List.take_replicate, show min MAX_MESSAGE_CHARS 9000 = 8000 by norm_num [MAX_MESSAGE_CHARS]]

/-- C5 counterexample: a request whose final message is a wipe command is
not intercepted: the conversation's memory records survive the request and
the command text itself is the last message of the window sent upstream. -/
theorem wipe_command_counterexample :
    mapGet (handleChat stWipe reqWipe "n" orcFail up0).state.storySummaries "chat-1" =
      some ("old story".toList)
    ∧ (handleChat stWipe reqWipe "n" orcFail up0).nimMessages.getLast? =
        some { role := "user", content := "/wipe".toList }
    ∧ mapGet (handleChat stWipe reqWipe "n" orcFail up0).state.coreMemories "chat-1" =
        some ("core text".toList) := by
  refine ⟨?_, ?_, ?_⟩ <;> decide

/-- C5 amended: the handler recognizes no in-band commands: no request ever
removes a memory record (core, story or cooldown entries only persist or are
overwritten), and the final client message — whatever its content — is
always forwarded upstream as the last message of the window, clamped. -/
theorem no_command_interception :
    ∀ (st : MemoryState) (req : ChatRequest) (nonce : String)
      (orc : UpstreamCall → Option (List Char)) (up : Nat → NimResponse)
      (k : String) (m : Msg),
      ((mapGet st.coreMemories k).isSome = true →
        (mapGet (handleChat st req nonce orc up).state.coreMemories k).isSome = true)
      ∧ ((mapGet st.storySummaries k).isSome = true →
        (mapGet (handleChat st req nonce orc up).state.storySummaries k).isSome = true)
      ∧ ((mapGet st.lastSummaryAt k).isSome = true →
        (mapGet (handleChat st req nonce orc up).state.lastSummaryAt k).isSome = true)
      ∧ ((req.messages.getD []).getLast? = some m →
        (handleChat st req nonce orc up).nimMessages.getLast? = some (clampMessage m)) := by
  intro st req nonce orc up k m
  refine ⟨?_, ?_, ?_, ?_⟩
  · intro h
    rw [handleChat_coreMemories]
    by_cases hh : mapHas st.coreMemories (resolveChatId req.chatIdHeader nonce)
    · rw [if_pos hh]
      exact h
    · rw [if_neg hh]
      exact mapGet_set_isSome _ _ _ _ h
  · intro h
    rw [handleChat_storySummaries]
    split
    · split
      · exact h
      · exact mapGet_set_isSome _ _ _ _ h
    · exact h
  · intro h
    rw [handleChat_lastSummaryAt]
    split
    · split
      · exact h
      · exact mapGet_set_isSome _ _ _ _ h
    · exact h
  · intro h
    rw [handleChat_nimMessages]
    have hwlast : (handleChat st req nonce orc up).window.getLast? =
        some (clampMessage m) := by
      rw [handleChat_window]
      have hmap : ((req.messages.getD []).map clampMessage).getLast? =
          some (clampMessage m) := by
        rw [List.getLast?_map, h]
        rfl
      by_cases hlen : ((req.messages.getD []).map clampMessage).length > MAX_MESSAGES
      · rw [if_pos hlen]
        rw [getLast?_drop_of_lt ((req.messages.getD []).map clampMessage)
            (((req.messages.getD []).map clampMessage).length - MAX_MESSAGES)
            (Nat.sub_lt (by omega) (by decide))]
        exact hmap
      · rw [if_neg hlen]
        exact hmap
    have hwne : (handleChat st req nonce orc up).window ≠ [] := by
      intro hc
      rw [hc] at hwlast
      simp at hwlast
    rw [List.getLast?_append_of_ne_nil _ hwne]
    exact hwlast

/-- C5 amended witness: the wipe-command request preserves chat-1's records
and forwards the command text upstream. -/
theorem no_command_interception_witness :
    (mapGet (handleChat stWipe reqWipe "n" orcFail up0).state.coreMemories "chat-1").isSome = true
    ∧ (mapGet (handleChat stWipe reqWipe "n" orcFail up0).state.storySummaries "chat-1").isSome = true
    ∧ (mapGet (handleChat stWipe reqWipe "n" orcFail up0).state.lastSummaryAt "chat-1").isSome = true
    ∧ (handleChat stWipe reqWipe "n" orcFail up0).nimMessages.getLast? =
        some (clampMessage { role := "user", content := "/wipe".toList }) := by
  obtain ⟨h1, h2, h3, h4⟩ := no_command_interception stWipe reqWipe "n" orcFail up0
    "chat-1" { role := "user", content := "/wipe".toList }
  exact ⟨h1 (by decide), h2 (by decide), h3 (by decide), h4 (by decide)⟩

/-- C8: the stream merger is chunking-invariant: feeding any byte sequence
as any sequence of chunks produces exactly the writes and final buffer of
feeding it as one chunk; in particular a frame split across two or more
chunks is forwarded identically to the unsplit frame. -/
theorem stream_chunk_invariance :
    ∀ (parse : List Char → Option Json) (stringify : Json → List Char)
      (chunks : List (List Char)),
      runStream (processLine parse stringify) chunks =
        runStream (processLine parse stringify) [chunks.flatten] := by
  intro parse stringify chunks
  unfold runStream
  rw [foldl_feedStep_flatten (processLine parse stringify) chunks [] (by simp),
      foldl_feedStep_flatten (processLine parse stringify) [chunks.flatten] [] (by simp)]
  simp

/-- C10 counterexample: a parsed frame whose delta carries a numeric content
is forwarded with that number kept as-is — delta.content is defined but not
a string, refuting "always a string". -/
theorem delta_rewrite_counterexample :
    deltaContent (rewriteFrame frameCE) = some (Json.num 42)
    ∧ isJsonStr (Json.num 42) = false
    ∧ getDelta (rewriteFrame frameCE) = some (Json.obj [("content", Json.num 42)]) :=
  ⟨rfl, rfl, rfl⟩

/-- C10 amended: for every frame whose choices[0].delta is an object, the
forwarded delta is the rewrite of the original: reasoning_content is removed,
and content is always defined — the original value when truthy, the empty
string when absent or falsy (hence a string whenever upstream sent a string
or nothing, though a truthy non-string value is kept as-is). -/
theorem delta_rewrite_amended :
    (∀ fields : List (String × Json),
      mapGet (rewriteDelta fields) "reasoning_content" = none
      ∧ mapGet (rewriteDelta fields) "content" =
          some (match mapGet (mapErase fields "reasoning_content") "content" with
                | some v => if truthy v then v else Json.str ""
                | none => Json.str ""))
    ∧ (∀ (j : Json) (dF : List (String × Json)),
        getDelta j = some (Json.obj dF) →
        getDelta (rewriteFrame j) = some (Json.obj (rewriteDelta dF))) := by
  constructor
  · intro fields
    constructor
    · show mapGet (mapSet (mapErase fields "reasoning_content") "content" _) "reasoning_content" = none
      rw [mapGet_set_ne _ _ _ _ (by decide)]
      exact mapGet_erase_self fields "reasoning_content"
    · show mapGet (mapSet (mapErase fields "reasoning_content") "content" _) "content" = _
      rw [mapGet_set_self]
  · intro j dF h
    cases j with
    | obj dataF =>
      simp only [getDelta] at h
      rcases hch : mapGet dataF "choices" with _ | ch
      · rw [hch] at h
        simp at h
      · rw [hch] at h
        cases ch with
        | arr l =>
          cases l with
          | nil => simp [getIdx] at h
          | cons c0 cs =>
            simp only [getIdx, List.get?] at h
            cases c0 with
            | obj c0F =>
              change mapGet c0F "delta" = some (Json.obj dF) at h
              have hrw : rewriteFrame (Json.obj dataF) =
                  Json.obj (mapSet dataF "choices" (Json.arr (Json.obj (mapSet c0F "delta"
                    (Json.obj (rewriteDelta dF))) :: cs))) := by
                simp only [rewriteFrame, hch, h, truthy, eq_self_iff_true, if_true]
              rw [hrw]
              simp only [getDelta]
              rw [mapGet_set_self]
              dsimp only [getIdx, List.get?]
              rw [mapGet_set_self]
            | null => simp at h
            | bool b => simp at h
            | num n => simp at h
            | str s => simp at h
            | arr l2 => simp at h
        | obj chF =>
          simp only [getIdx] at h
          rcases h0 : mapGet chF "0" with _ | c00
          · rw [show (toString 0 : String) = "0" from rfl, h0] at h
            simp at h
          · rw [show (toString 0 : String) = "0" from rfl, h0] at h
            cases c00 with
            | obj c0F =>
              change mapGet c0F "delta" = some (Json.obj dF) at h
              have hrw : rewriteFrame (Json.obj dataF) =
                  Json.obj (mapSet dataF "choices" (Json.obj (mapSet chF "0"
                    (Json.obj (mapSet c0F "delta" (Json.obj (rewriteDelta dF))))))) := by
                simp only [rewriteFrame, hch, h0, h, truthy, eq_self_iff_true, if_true]
              rw [hrw]
              simp only [getDelta]
              rw [mapGet_set_self]
              dsimp only [getIdx]
              rw [show (toString 0 : String) = "0" from rfl, mapGet_set_self]
              dsimp only
              rw [mapGet_set_self]
            | null => simp at h
            | bool b => simp at h
            | num n => simp at h
            | str s => simp at h
            | arr l2 => simp at h
        | null => simp [getIdx] at h
        | bool b => simp [getIdx] at h
        | num n => simp [getIdx] at h
        | str s => simp [getIdx] at h
    | null => simp [getDelta] at h
    | bool b => simp [getDelta] at h
    | num n => simp [getDelta] at h
    | str s => simp [getDelta] at h
    | arr l => simp [getDelta] at h

/-- C10 amended witness at a concrete frame. -/
theorem delta_rewrite_amended_witness :
    mapGet (rewriteDelta deltaW) "reasoning_content" = none
    ∧ getDelta (rewriteFrame frameW) = some (Json.obj (rewriteDelta deltaW)) := by
  have h := delta_rewrite_amended
  exact ⟨(h.1 deltaW).1, h.2 frameW deltaW rfl⟩
